import Mathlib

/-!
Verification of the Swarr frontend core (src/frontend/src/App.tsx): the
timeline compiler that turns buffered code events into a schedule of
pitched, timed events, the playback/session lifecycle state machine, and
the visual node pool.  Definitions are shallow embeddings of the
TypeScript source; theorems settle the specified properties.
-/

namespace Swarr

/-- A code event received from the analysis stream (interface
`MusicalEvent` in App.tsx, minus the derived `note`/`duration` fields
which the compiler assigns). -/
structure MusicalEvent where
  type : String
  startLine : Int
  endLine : Int
  isError : Bool
  message : String
  deriving Repr, DecidableEq

/-- A pitch as passed to `triggerAttackRelease`: either a single note
name or a pair of note names (the source uses `string | string[]`,
where the array case always has two elements). -/
inductive Note where
  | single : String → Note
  | pair : String → String → Note
  deriving Repr, DecidableEq

/-- One entry of the `scheduledEvents` array built in `ws.onclose`:
the event enriched with its absolute start time (seconds), pitch and
symbolic duration. -/
structure ScheduledEvent where
  time : ℚ
  note : Note
  duration : String
  type : String
  startLine : Int
  endLine : Int
  isError : Bool
  message : String
  deriving Repr, DecidableEq

/-- `Tone.Time(d).toSeconds()` at the default transport tempo
(120 BPM): a quarter note is half a second.  Only the three symbolic
durations appearing in the source are mapped. -/
def durationToSeconds : String → ℚ
  | "4n" => 1/2
  | "8n" => 1/4
  | "16n" => 1/8
  | _ => 0

/-- `currentScale[i % currentScale.length]` from the source: index the
scale cyclically (out of range on an empty scale yields a dummy value,
as JS would yield `undefined`). -/
def scaleAt (scale : List String) (i : Nat) : String :=
  scale.getD (i % scale.length) ""

/-- The pitch/duration assignment of the compile loop in `ws.onclose`
(App.tsx lines 283-299), as a function of the active scale, the current
`messageCounter` and the event. -/
def pitchAndDuration (scale : List String) (messageCounter : Nat)
    (e : MusicalEvent) : Note × String :=
  if e.isError then
    if e.type = "syntax_error" then (Note.pair "C2" "C#2", "8n")
    else if e.type = "logical_error" then (Note.pair "E2" "F2", "16n")
    else if e.type = "best_practice" then (Note.pair "G2" "G#2", "16n")
    else (Note.single "C2", "16n")
  else
    if e.type = "function_declaration" ∨ e.type = "arrow_function" then
      (Note.pair (scaleAt scale ((e.startLine + (messageCounter : Int)).natAbs))
        (scaleAt scale ((e.startLine + (messageCounter : Int)).natAbs + 3)), "4n")
    else
      (Note.single (scaleAt scale ((e.startLine + (messageCounter : Int)).natAbs)), "16n")

/-- Building `newScheduledEvent` (App.tsx lines 302-311). -/
def mkScheduled (t : ℚ) (nd : Note × String) (e : MusicalEvent) : ScheduledEvent :=
  { time := t, note := nd.1, duration := nd.2, type := e.type,
    startLine := e.startLine, endLine := e.endLine,
    isError := e.isError, message := e.message }

/-- The `musicalEvents.forEach` compile loop of `ws.onclose`, carrying
the running `cumulativeTime` and `messageCounter`. -/
def compileAux (scale : List String) :
    List MusicalEvent → ℚ → Nat → List ScheduledEvent
  | [], _, _ => []
  | e :: rest, t, k =>
    mkScheduled t (pitchAndDuration scale k e) e ::
      compileAux scale rest
        (t + durationToSeconds (pitchAndDuration scale k e).2)
        (if e.isError then k else k + 1)

/-- The Timeline Compiler: the compile loop started with
`cumulativeTime = 0` and `messageCounter = 0`. -/
def compileTimeline (scale : List String) (events : List MusicalEvent) :
    List ScheduledEvent :=
  compileAux scale events 0 0

/-- Number of non-error events in a list: the value of `messageCounter`
after the loop has processed exactly these events. -/
def nonErrorCount (events : List MusicalEvent) : Nat :=
  (events.filter (fun e => !e.isError)).length

/-- The fixed error table of the compile loop (the `switch` on
`event.type` in the `isError` branch), pitch component. -/
def errorNote (kind : String) : Note :=
  if kind = "syntax_error" then Note.pair "C2" "C#2"
  else if kind = "logical_error" then Note.pair "E2" "F2"
  else if kind = "best_practice" then Note.pair "G2" "G#2"
  else Note.single "C2"

/-- The fixed error table of the compile loop, duration component. -/
def errorDuration (kind : String) : String :=
  if kind = "syntax_error" then "8n" else "16n"

/-- Cumulative seconds contributed by a prefix of events when the
compile loop enters it with `messageCounter = k`. -/
def prefixDur (scale : List String) : List MusicalEvent → Nat → ℚ
  | [], _ => 0
  | e :: rest, k =>
    durationToSeconds (pitchAndDuration scale k e).2 +
      prefixDur scale rest (if e.isError then k else k + 1)

/-- A summary surfaced through `setSummary` (modal title plus the list
of formatted error messages). -/
structure Summary where
  title : String
  messages : List String
  deriving Repr, DecidableEq

/-- `HighlightInfo` from App.tsx; the source field `end` is a Lean
keyword, rendered here as `endL`. -/
structure HighlightInfo where
  start : Int
  endL : Int
  type : String
  isError : Bool
  deriving Repr, DecidableEq

/-- `NodeVisualProps` from App.tsx: one spawned visual node. -/
structure VisualNode where
  id : String
  type : String
  posX : ℚ
  posY : ℚ
  posZ : ℚ
  duration : ℚ
  isError : Bool
  deriving Repr, DecidableEq

/-- JavaScript `Map.set` on the per-line error draft: overwrite in
place when the key exists (last write wins), otherwise append in
insertion order. -/
def mapSet (m : List (Int × String)) (k : Int) (v : String) :
    List (Int × String) :=
  if m.any (fun p => p.1 = k) then
    m.map (fun p => if p.1 = k then (k, v) else p)
  else m ++ [(k, v)]

/-- The error side-channel format
`` `Line ${data.startLine}: [${data.type}] ${data.message}` ``. -/
def fmtErrorMessage (e : MusicalEvent) : String :=
  "Line " ++ toString e.startLine ++ ": [" ++ e.type ++ "] " ++ e.message

/-- The keys of the `musicPalettes` table. -/
def musicPaletteKeys : List String :=
  ["Go-Concurrent", "Go-Systems", "JS-Async", "JS-DOM", "JS-Functional",
   "Algorithmic-Logic", "default"]

/-- The pitch scales of the `musicPalettes` table. -/
def paletteScaleOf (key : String) : List String :=
  if key = "Go-Concurrent" then
    ["C3", "D#3", "G3", "G#3", "C4", "D#4", "G4", "G#4"]
  else if key = "Go-Systems" then
    ["A2", "B2", "C3", "E3", "A3", "B3", "C4", "E4"]
  else if key = "JS-Async" then
    ["G4", "A4", "C5", "D5", "F5", "G5", "A5", "C6"]
  else if key = "JS-DOM" then
    ["C4", "E4", "G4", "A4", "B4", "C5", "E5", "G5"]
  else if key = "JS-Functional" then
    ["D3", "F3", "A3", "C4", "E4", "F4", "A4", "C5"]
  else if key = "Algorithmic-Logic" then
    ["C4", "D4", "E4", "F#4", "G#4", "A#4", "C5", "D5"]
  else ["C4", "D4", "E4", "F4", "G4", "A4", "B4", "C5"]

/-- The summary shown when the stream closes with zero buffered
events. -/
def emptyAnalysisSummary : Summary :=
  ⟨"Analysis Complete",
   ["No parsable musical elements were found in the code."]⟩

/-- The summary shown by `ws.onerror`. -/
def wsErrorSummary : Summary :=
  ⟨"Connection Error",
   ["Failed to connect to the visualizer service."]⟩

/-- The summary shown by the `catch` around session startup
(classification failure). -/
def catchErrorSummary : Summary :=
  ⟨"Connection Error",
   ["Could not connect to the backend service."]⟩

/-- The React state of the `App` component together with the session
refs and the session-local buffers of `handlePlay` (`musicalEvents`,
`errorMessages`, `collectedErrors`, `scheduledEvents`). -/
structure AppState where
  codeText : String
  isPlaying : Bool
  status : String
  visualNodes : List VisualNode
  activePalette : String
  highlightedLines : Option HighlightInfo
  summary : Option Summary
  persistentErrors : List (Int × String)
  paletteScale : List String
  buffered : List MusicalEvent
  errorMessages : List String
  collectedErrors : List (Int × String)
  schedule : List ScheduledEvent
  wsOpen : Bool
  stopTimeoutPending : Bool
  transportRunning : Bool
  sequenceActive : Bool
  synthActive : Bool
  deriving Repr, DecidableEq

/-- `stopMusic` (App.tsx lines 191-209): clear the pending finalize
timeout, stop and cancel the transport, dispose the sequence, close
the channel if open, leave playing mode, and either surface the given
final summary (also as the status line) or reset the status.  It does
not touch `persistentErrors`, `highlightedLines`, `visualNodes` or the
synth. -/
def stopMusic (finalSummary : Option Summary) (s : AppState) : AppState :=
  { s with
    stopTimeoutPending := false,
    transportRunning := false,
    sequenceActive := false,
    wsOpen := false,
    isPlaying := false,
    summary := match finalSummary with
      | some fs => some fs
      | none => s.summary,
    status := match finalSummary with
      | some fs => fs.title
      | none => "Ready to play again." }

/-- `handleCodeChange` (App.tsx lines 211-218): update the text and, if
any persistent errors are recorded, clear them and the highlight. -/
def handleCodeChange (newCode : String) (s : AppState) : AppState :=
  if s.persistentErrors.length > 0 then
    { s with
      codeText := newCode,
      persistentErrors := [],
      highlightedLines := none }
  else { s with codeText := newCode }

/-- The summary built at the end of `ws.onclose` from the collected
error messages. -/
def finalSummaryOf (s : AppState) : Summary :=
  ⟨if s.errorMessages.length > 0 then "Analysis Complete: Issues Found"
    else "Analysis Complete: Code is Clean!", s.errorMessages⟩

/-- The external stimuli driving the lifecycle controller: user
actions (play press, edit), the classification response, and the
channel callbacks.  `streamClose` is delivered once per channel when
it closes, whether closed by the server or by the client. -/
inductive Msg where
  | playPressed
  | classifyOk (genre : String)
  | classifyFail
  | codeEvent (e : MusicalEvent)
  | streamError
  | streamClose
  | finalizeTimer
  | editCode (newCode : String)

/-- One reaction of the component to a stimulus, following the
handlers in App.tsx: `handlePlay` (play press: stop request while
playing, session reset plus classification otherwise), the palette
and synth setup after a successful classification, `ws.onmessage`,
`ws.onerror`, `ws.onclose` (empty-analysis stop or compile-and-play),
the deferred `finalStop`, and `handleCodeChange`. -/
def step (s : AppState) : Msg → AppState
  | .playPressed =>
    if s.isPlaying then { s with wsOpen := false }
    else
      { s with
        isPlaying := true,
        visualNodes := [],
        highlightedLines := none,
        summary := none,
        persistentErrors := [],
        status := "1/3: Classifying code..." }
  | .classifyOk genre =>
    { s with
      activePalette :=
        if genre ∈ musicPaletteKeys then genre else "default",
      paletteScale :=
        paletteScaleOf
          (if genre ∈ musicPaletteKeys then genre else "default"),
      synthActive := true,
      status := "2/3: Analyzing code structure...",
      buffered := [], errorMessages := [], collectedErrors := [],
      schedule := [],
      wsOpen := true }
  | .classifyFail => stopMusic (some catchErrorSummary) s
  | .codeEvent e =>
    if s.wsOpen then
      { s with
        buffered := s.buffered ++ [e],
        errorMessages :=
          if e.isError then s.errorMessages ++ [fmtErrorMessage e]
          else s.errorMessages,
        collectedErrors :=
          if e.isError then mapSet s.collectedErrors e.startLine e.type
          else s.collectedErrors }
    else s
  | .streamError => stopMusic (some wsErrorSummary) s
  | .streamClose =>
    if s.buffered.length = 0 then
      stopMusic (some emptyAnalysisSummary) { s with wsOpen := false }
    else
      { s with
        wsOpen := false,
        status := "3/3: Composing and playing music...",
        schedule := compileTimeline s.paletteScale s.buffered,
        sequenceActive := true,
        transportRunning := true,
        stopTimeoutPending := true }
  | .finalizeTimer =>
    if s.stopTimeoutPending then
      stopMusic (some (finalSummaryOf s))
        { s with persistentErrors := s.collectedErrors }
    else s
  | .editCode newCode => handleCodeChange newCode s

/-- The component's state as mounted (the `useState` initial
values), for a given initial source text. -/
def initialState (code : String) : AppState :=
  { codeText := code,
    isPlaying := false,
    status := "Ready. Paste your code and press Play.",
    visualNodes := [],
    activePalette := "default",
    highlightedLines := none,
    summary := none,
    persistentErrors := [],
    paletteScale := paletteScaleOf "default",
    buffered := [],
    errorMessages := [],
    collectedErrors := [],
    schedule := [],
    wsOpen := false,
    stopTimeoutPending := false,
    transportRunning := false,
    sequenceActive := false,
    synthActive := false }

/-- `setVisualNodes(prev => [...prev.slice(-30), newNode])` from the
`Tone.Draw.schedule` callback: keep the last 30 previous nodes and
append the new one (`slice(-30)` keeps the whole array when it has at
most 30 elements). -/
def spawnNode (prev : List VisualNode) (n : VisualNode) : List VisualNode :=
  prev.drop (prev.length - 30) ++ [n]

/-- The active node set after spawning the given nodes in order,
starting from the empty set of a fresh session. -/
def spawnMany (nodes : List VisualNode) : List VisualNode :=
  nodes.foldl spawnNode []

/-- A sample node with the given id (the random id and position of the
source are inputs here; they do not affect pool membership). -/
def mkNode (i : Nat) : VisualNode :=
  ⟨toString i, "statement", 0, 0, 0, 0, false⟩

/-- Thirty-one distinct nodes, spawned in order. -/
def manyNodes : List VisualNode := (List.range 31).map mkNode

/-- A session driven to natural completion: play press from idle,
successful classification, a stream of events, server close, then the
deferred finalize timer. -/
def runSession (s : AppState) (genre : String)
    (events : List MusicalEvent) : AppState :=
  step
    (step
      (events.foldl (fun s e => step s (.codeEvent e))
        (step (step s .playPressed) (.classifyOk genre)))
      .streamClose)
    .finalizeTimer

/-- A state with a committed error map from a previous completed
session, about to start a new session. -/
def prePlayState : AppState :=
  { initialState "code" with persistentErrors := [(7, "syntax_error")] }

/-- `prePlayState` after starting a session, buffering one non-error
event and reaching playback (the stream closed, the transport runs,
the finalize timer is pending). -/
def midPlaybackState : AppState :=
  step
    (step
      (step (step prePlayState .playPressed) (.classifyOk "JS-DOM"))
      (.codeEvent ⟨"statement", 1, 1, false, "m"⟩))
    .streamClose

/-- An in-session state mid-stream: the channel is open and one event
has been buffered. -/
def midStreamState : AppState :=
  step (step (step (initialState "c") .playPressed) (.classifyOk "default"))
    (.codeEvent ⟨"statement", 1, 1, false, "m"⟩)

/-- Derivation relation for the compile loop, one constructor per loop
iteration: `CompilesFrom scale es t k out` holds when one run of the
loop over `es`, entered with cumulative time `t` and counter `k`, can
produce `out`. -/
inductive CompilesFrom (scale : List String) :
    List MusicalEvent → ℚ → Nat → List ScheduledEvent → Prop
  | nil (t : ℚ) (k : Nat) : CompilesFrom scale [] t k []
  | cons (e : MusicalEvent) (rest : List MusicalEvent) (t : ℚ) (k : Nat)
      (out : List ScheduledEvent)
      (h : CompilesFrom scale rest
        (t + durationToSeconds (pitchAndDuration scale k e).2)
        (if e.isError then k else k + 1) out) :
      CompilesFrom scale (e :: rest) t k
        (mkScheduled t (pitchAndDuration scale k e) e :: out)

/-- Scale and event sequence used to instantiate the compiler claims:
the default palette scale and a four-event stream containing a syntax
error between non-error events. -/
def witnessScale : List String :=
  ["C4", "D4", "E4", "F4", "G4", "A4", "B4", "C5"]

def witnessEvents : List MusicalEvent :=
  [⟨"statement", 1, 1, false, "m0"⟩,
   ⟨"syntax_error", 2, 3, true, "missing )"⟩,
   ⟨"function_declaration", 2, 4, false, "m2"⟩,
   ⟨"statement", 5, 5, false, "m3"⟩]

/-- The schedule the compiler produces on the witness stream, written
out in full. -/
def witnessSchedule : List ScheduledEvent :=
  [⟨0, Note.single "D4", "16n", "statement", 1, 1, false, "m0"⟩,
   ⟨0 + 1/8, Note.pair "C2" "C#2", "8n", "syntax_error", 2, 3, true,
     "missing )"⟩,
   ⟨0 + 1/8 + 1/4, Note.pair "F4" "B4", "4n", "function_declaration",
     2, 4, false, "m2"⟩,
   ⟨0 + 1/8 + 1/4 + 1/2, Note.single "C5", "16n", "statement", 5, 5,
     false, "m3"⟩]

example : compileTimeline ["C4", "D4", "E4"] [⟨"statement", 5, 5, false, ""⟩] =
    [⟨0, Note.single "E4", "16n", "statement", 5, 5, false, ""⟩] := by decide

theorem length_compileAux (scale : List String) (es : List MusicalEvent)
    (t : ℚ) (k : Nat) : (compileAux scale es t k).length = es.length := by
  induction es generalizing t k with
  | nil => rfl
  | cons e rest ih => simp [compileAux, ih]

theorem nonErrorCount_nil : nonErrorCount [] = 0 := rfl

theorem nonErrorCount_cons (e : MusicalEvent) (l : List MusicalEvent) :
    nonErrorCount (e :: l) =
      (if e.isError then 0 else 1) + nonErrorCount l := by
  simp only [nonErrorCount, List.filter_cons]
  cases h : e.isError <;> simp <;> omega

theorem nonErrorCount_append (l₁ l₂ : List MusicalEvent) :
    nonErrorCount (l₁ ++ l₂) = nonErrorCount l₁ + nonErrorCount l₂ := by
  simp [nonErrorCount, List.filter_append]

/-- Pointwise characterization of the compile loop: the `i`-th output is
built from the `i`-th input, at the cumulative time of the processed
prefix and with the counter advanced by the prefix's non-error count. -/
theorem getElem_compileAux (scale : List String) (es : List MusicalEvent)
    (i : Nat) (t : ℚ) (k : Nat) (hi : i < es.length)
    (hi' : i < (compileAux scale es t k).length) :
    (compileAux scale es t k)[i] =
      mkScheduled (t + prefixDur scale (es.take i) k)
        (pitchAndDuration scale (k + nonErrorCount (es.take i)) es[i])
        es[i] := by
  induction es generalizing i t k with
  | nil => simp at hi
  | cons e rest ih =>
    cases i with
    | zero =>
      simp [compileAux, prefixDur, nonErrorCount]
    | succ i =>
      have hrest : i < rest.length := by simpa using hi
      have hrest' : i < (compileAux scale rest
          (t + durationToSeconds (pitchAndDuration scale k e).2)
          (if e.isError then k else k + 1)).length := by
        rw [length_compileAux]; exact hrest
      simp only [compileAux, List.getElem_cons_succ, List.take_succ_cons]
      rw [ih _ _ _ hrest hrest']
      have hcount : k + nonErrorCount (e :: rest.take i) =
          (if e.isError then k else k + 1) + nonErrorCount (rest.take i) := by
        rw [nonErrorCount_cons]
        cases e.isError <;> simp <;> omega
      rw [prefixDur, hcount, add_assoc]

theorem durationToSeconds_nonneg (d : String) : 0 ≤ durationToSeconds d := by
  unfold durationToSeconds
  split <;> norm_num

/-- The absolute time of the `i`-th output is the start time plus the
sum of the durations (in seconds) of the outputs before it. -/
theorem time_compileAux (scale : List String) (es : List MusicalEvent)
    (i : Nat) (t : ℚ) (k : Nat)
    (hi' : i < (compileAux scale es t k).length) :
    (compileAux scale es t k)[i].time =
      t + (((compileAux scale es t k).take i).map
        (fun se => durationToSeconds se.duration)).sum := by
  induction es generalizing i t k with
  | nil => simp [compileAux] at hi'
  | cons e rest ih =>
    cases i with
    | zero => simp [compileAux, mkScheduled]
    | succ i =>
      have hrest' : i < (compileAux scale rest
          (t + durationToSeconds (pitchAndDuration scale k e).2)
          (if e.isError then k else k + 1)).length := by
        have := hi'
        simp only [compileAux, List.length_cons] at this
        omega
      simp only [compileAux, List.getElem_cons_succ, List.take_succ_cons,
        List.map_cons, List.sum_cons]
      rw [ih _ _ _ hrest']
      simp [mkScheduled, add_assoc]

theorem compilesFrom_total (scale : List String) (es : List MusicalEvent)
    (t : ℚ) (k : Nat) : CompilesFrom scale es t k (compileAux scale es t k) := by
  induction es generalizing t k with
  | nil => exact CompilesFrom.nil t k
  | cons e rest ih => exact CompilesFrom.cons e rest t k _ (ih _ _)

theorem compilesFrom_det (scale : List String) (es : List MusicalEvent) :
    ∀ (t : ℚ) (k : Nat) (o₁ o₂ : List ScheduledEvent),
      CompilesFrom scale es t k o₁ → CompilesFrom scale es t k o₂ →
      o₁ = o₂ := by
  induction es with
  | nil =>
    intro t k o₁ o₂ h1 h2
    cases h1
    cases h2
    rfl
  | cons e rest ih =>
    intro t k o₁ o₂ h1 h2
    cases h1 with
    | cons _ _ _ _ out1 hr1 =>
      cases h2 with
      | cons _ _ _ _ out2 hr2 =>
        rw [ih _ _ out1 out2 hr1 hr2]

/-- C1: a non-error event at position `i` is pitched from
`scale[|startLine + nonErrorIndex| mod len]`, where `nonErrorIndex` is
the number of non-error events strictly before it; compound kinds
(`function_declaration`, `arrow_function`) get the pair
`(scale[idx mod len], scale[(idx+3) mod len])` with the longer `4n`
duration, all other kinds the single `scale[idx mod len]` with the
shorter `16n` duration. -/
theorem compile_nonError_pitch (scale : List String)
    (events : List MusicalEvent) (i : Nat) (hi : i < events.length)
    (hi' : i < (compileTimeline scale events).length)
    (he : events[i].isError = false) :
    (compileTimeline scale events)[i].note =
      (if events[i].type = "function_declaration" ∨
          events[i].type = "arrow_function" then
        Note.pair
          (scaleAt scale
            ((events[i].startLine +
              (nonErrorCount (events.take i) : Int)).natAbs))
          (scaleAt scale
            ((events[i].startLine +
              (nonErrorCount (events.take i) : Int)).natAbs + 3))
      else
        Note.single
          (scaleAt scale
            ((events[i].startLine +
              (nonErrorCount (events.take i) : Int)).natAbs))) ∧
    (compileTimeline scale events)[i].duration =
      (if events[i].type = "function_declaration" ∨
          events[i].type = "arrow_function" then "4n" else "16n") ∧
    durationToSeconds "16n" < durationToSeconds "4n" := by
  have h := getElem_compileAux scale events i 0 0 hi
    (by simpa [compileTimeline] using hi')
  have hmk : (compileTimeline scale events)[i] =
      mkScheduled (0 + prefixDur scale (events.take i) 0)
        (pitchAndDuration scale (0 + nonErrorCount (events.take i))
          events[i]) events[i] := h
  rw [hmk]
  simp only [mkScheduled, pitchAndDuration, he, Bool.false_eq_true,
    if_false, Nat.zero_add]
  refine ⟨?_, ?_, by norm_num [durationToSeconds]⟩ <;> split <;> rfl

theorem compile_nonError_pitch_witness :
    ((compileTimeline witnessScale witnessEvents).get ⟨3, by decide⟩).note =
      Note.single "C5" ∧
    ((compileTimeline witnessScale witnessEvents).get
      ⟨3, by decide⟩).duration = "16n" := by
  have h := compile_nonError_pitch witnessScale witnessEvents 3
    (by decide) (by decide) (by decide)
  obtain ⟨h1, h2, -⟩ := h
  rw [List.get_eq_getElem]
  rw [h1, h2]
  decide

/-- C2: the compiler emits exactly one ScheduledEvent per CodeEvent, in
arrival order (all carried-over fields at position `i` come from input
`i`); each output's `time` is the sum of the durations-in-seconds of
the outputs before it (starting at 0), hence `time` is monotone
non-decreasing along the schedule. -/
theorem compile_one_per_event_cumulative (scale : List String)
    (events : List MusicalEvent) :
    (compileTimeline scale events).length = events.length ∧
    (∀ (i : Nat) (hi : i < events.length)
       (hi' : i < (compileTimeline scale events).length),
      (compileTimeline scale events)[i].type = events[i].type ∧
      (compileTimeline scale events)[i].startLine = events[i].startLine ∧
      (compileTimeline scale events)[i].endLine = events[i].endLine ∧
      (compileTimeline scale events)[i].isError = events[i].isError ∧
      (compileTimeline scale events)[i].message = events[i].message) ∧
    (∀ (i : Nat) (hi' : i < (compileTimeline scale events).length),
      (compileTimeline scale events)[i].time =
        (((compileTimeline scale events).take i).map
          (fun se => durationToSeconds se.duration)).sum) ∧
    (∀ (i : Nat) (h1 : i < (compileTimeline scale events).length)
       (h2 : i + 1 < (compileTimeline scale events).length),
      (compileTimeline scale events)[i].time ≤
        (compileTimeline scale events)[i + 1].time) := by
  have hlen : (compileTimeline scale events).length = events.length :=
    length_compileAux scale events 0 0
  have htime : ∀ (i : Nat)
      (hi' : i < (compileTimeline scale events).length),
      (compileTimeline scale events)[i].time =
        (((compileTimeline scale events).take i).map
          (fun se => durationToSeconds se.duration)).sum := by
    intro i hi'
    have := time_compileAux scale events i 0 0
      (by simpa [compileTimeline] using hi')
    simpa [compileTimeline] using this
  refine ⟨hlen, ?_, htime, ?_⟩
  · intro i hi hi'
    have h := getElem_compileAux scale events i 0 0 hi
      (by simpa [compileTimeline] using hi')
    have hmk : (compileTimeline scale events)[i] =
        mkScheduled (0 + prefixDur scale (events.take i) 0)
          (pitchAndDuration scale (0 + nonErrorCount (events.take i))
            events[i]) events[i] := h
    rw [hmk]
    simp [mkScheduled]
  · intro i h1 h2
    have e1 := htime i h1
    have e2 := htime (i + 1) h2
    have hsplit : (compileTimeline scale events).take (i + 1) =
        (compileTimeline scale events).take i ++
          [(compileTimeline scale events)[i]] := by
      rw [List.take_succ]
      simp [List.getElem?_eq_getElem h1]
    rw [e1, e2, hsplit]
    simp only [List.map_append, List.sum_append, List.map_cons,
      List.map_nil, List.sum_cons, List.sum_nil]
    have := durationToSeconds_nonneg
      ((compileTimeline scale events)[i].duration)
    linarith

theorem compile_one_per_event_cumulative_witness :
    (compileTimeline witnessScale witnessEvents).length = 4 ∧
    ((compileTimeline witnessScale witnessEvents).get ⟨3, by decide⟩).time
      = 7/8 := by
  obtain ⟨hlen, -, htime, -⟩ :=
    compile_one_per_event_cumulative witnessScale witnessEvents
  refine ⟨by rw [hlen]; decide, ?_⟩
  rw [List.get_eq_getElem, htime 3 (by rw [hlen]; decide)]
  have hws : compileTimeline witnessScale witnessEvents =
      witnessSchedule := rfl
  rw [hws]
  norm_num [witnessSchedule,
    show durationToSeconds "16n" = 1/8 from rfl,
    show durationToSeconds "8n" = 1/4 from rfl,
    show durationToSeconds "4n" = 1/2 from rfl]

/-- C3: an error event's pitch and duration come from the fixed error
table keyed only on the kind, independent of the scale, the line
number and the non-error counter, and the non-error counter is not
advanced by an error event. -/
theorem compile_error_fixed_table (scale : List String)
    (events : List MusicalEvent) (i : Nat) (hi : i < events.length)
    (hi' : i < (compileTimeline scale events).length)
    (he : events[i].isError = true) :
    (compileTimeline scale events)[i].note = errorNote events[i].type ∧
    (compileTimeline scale events)[i].duration =
      errorDuration events[i].type ∧
    (∀ (scale₂ : List String)
       (h₂ : i < (compileTimeline scale₂ events).length),
      (compileTimeline scale₂ events)[i].note =
        (compileTimeline scale events)[i].note ∧
      (compileTimeline scale₂ events)[i].duration =
        (compileTimeline scale events)[i].duration) ∧
    nonErrorCount (events.take (i + 1)) =
      nonErrorCount (events.take i) := by
  have key : ∀ (sc : List String)
      (h : i < (compileTimeline sc events).length),
      (compileTimeline sc events)[i].note = errorNote events[i].type ∧
      (compileTimeline sc events)[i].duration =
        errorDuration events[i].type := by
    intro sc h
    have hg := getElem_compileAux sc events i 0 0 hi
      (by simpa [compileTimeline] using h)
    have hmk : (compileTimeline sc events)[i] =
        mkScheduled (0 + prefixDur sc (events.take i) 0)
          (pitchAndDuration sc (0 + nonErrorCount (events.take i))
            events[i]) events[i] := hg
    rw [hmk]
    simp only [mkScheduled, pitchAndDuration, he, if_true]
    constructor <;> · simp only [errorNote, errorDuration]; split_ifs <;> rfl
  have hcount : nonErrorCount (events.take (i + 1)) =
      nonErrorCount (events.take i) := by
    have hsplit : events.take (i + 1) = events.take i ++ [events[i]] := by
      rw [List.take_succ]
      simp [List.getElem?_eq_getElem hi]
    rw [hsplit, nonErrorCount_append]
    simp [nonErrorCount, he]
  obtain ⟨hn, hd⟩ := key scale hi'
  refine ⟨hn, hd, ?_, hcount⟩
  intro scale₂ h₂
  obtain ⟨hn₂, hd₂⟩ := key scale₂ h₂
  exact ⟨by rw [hn₂, hn], by rw [hd₂, hd]⟩

theorem compile_error_fixed_table_witness :
    ((compileTimeline witnessScale witnessEvents).get ⟨1, by decide⟩).note =
      Note.pair "C2" "C#2" ∧
    ((compileTimeline witnessScale witnessEvents).get
      ⟨1, by decide⟩).duration = "8n" ∧
    nonErrorCount (witnessEvents.take 2) =
      nonErrorCount (witnessEvents.take 1) := by
  obtain ⟨hn, hd, -, hc⟩ := compile_error_fixed_table witnessScale
    witnessEvents 1 (by decide) (by decide) (by decide)
  rw [List.get_eq_getElem]
  rw [hn, hd]
  refine ⟨by decide, by decide, hc⟩

/-- C9: the Timeline Compiler is deterministic — any two runs of the
compile loop over the same event sequence with the same palette scale
produce equal ScheduledEvent sequences (every field of every entry
equal, in order). -/
theorem compiler_deterministic (scale : List String)
    (events : List MusicalEvent) (out₁ out₂ : List ScheduledEvent)
    (h₁ : CompilesFrom scale events 0 0 out₁)
    (h₂ : CompilesFrom scale events 0 0 out₂) : out₁ = out₂ :=
  compilesFrom_det scale events 0 0 out₁ out₂ h₁ h₂

theorem compiler_deterministic_witness :
    compileTimeline witnessScale witnessEvents = witnessSchedule := by
  have htotal := compilesFrom_total witnessScale witnessEvents 0 0
  have hlit : compileAux witnessScale witnessEvents 0 0 =
      witnessSchedule := rfl
  exact compiler_deterministic witnessScale witnessEvents
    (compileTimeline witnessScale witnessEvents) witnessSchedule
    htotal (hlit ▸ htotal)

/-- C7: when the stream closes with zero buffered events the session
ends immediately with the empty-analysis outcome — the summary is
titled "Analysis Complete" with the no-elements-found message, playing
mode ends, and neither the schedule (no compiler run) nor the
persistent error map is touched (both stay empty when they were
empty). -/
theorem empty_stream_outcome (s : AppState) (h : s.buffered = []) :
    (step s .streamClose).summary =
      some ⟨"Analysis Complete",
        ["No parsable musical elements were found in the code."]⟩ ∧
    (step s .streamClose).status = "Analysis Complete" ∧
    (step s .streamClose).isPlaying = false ∧
    (step s .streamClose).schedule = s.schedule ∧
    (step s .streamClose).persistentErrors = s.persistentErrors ∧
    (s.schedule = [] → (step s .streamClose).schedule = []) ∧
    (s.persistentErrors = [] →
      (step s .streamClose).persistentErrors = []) := by
  simp [step, h, stopMusic, emptyAnalysisSummary]

theorem empty_stream_outcome_witness :
    (step (step (step (initialState "x") .playPressed)
        (.classifyOk "JS-Async")) .streamClose).summary =
      some ⟨"Analysis Complete",
        ["No parsable musical elements were found in the code."]⟩ ∧
    (step (step (step (initialState "x") .playPressed)
        (.classifyOk "JS-Async")) .streamClose).schedule = [] ∧
    (step (step (step (initialState "x") .playPressed)
        (.classifyOk "JS-Async")) .streamClose).persistentErrors = [] := by
  obtain ⟨h1, -, -, -, -, h2, h3⟩ := empty_stream_outcome
    (step (step (initialState "x") .playPressed) (.classifyOk "JS-Async"))
    (by decide)
  exact ⟨h1, h2 (by decide), h3 (by decide)⟩

/-- C8 as stated is false in several ways: the two failure summaries
are not identical (their message bodies differ), and for a stream
failure the "Connection Error" summary is neither terminal nor does it
keep the Timeline Compiler out of reach — the channel's close callback
still follows the error callback, and `ws.onclose` then overwrites the
summary with the empty-analysis one (zero buffered events), or
compiles the buffered events and restarts the transport and the
finalize timer (at least one buffered event). -/
theorem failure_summary_counterexample :
    (step (initialState "x") .streamError).summary ≠
      (step (initialState "x") .classifyFail).summary ∧
    (step (initialState "x") .streamError).summary =
      some wsErrorSummary ∧
    (step (step (initialState "x") .streamError) .streamClose).summary =
      some emptyAnalysisSummary ∧
    some emptyAnalysisSummary ≠ some wsErrorSummary ∧
    (step midStreamState .streamError).summary = some wsErrorSummary ∧
    (step (step midStreamState .streamError) .streamClose).schedule ≠
      [] ∧
    (step (step midStreamState .streamError)
      .streamClose).transportRunning = true ∧
    (step (step midStreamState .streamError)
      .streamClose).stopTimeoutPending = true := by
  refine ⟨?_, ?_, ?_, ?_, ?_, ?_, ?_, ?_⟩ <;> decide

/-- C8 amended: both failure kinds surface, through the same summary
field used by successful completions, a summary with the same title
"Connection Error" but failure-specific message bodies, and both
trigger full teardown via `stopMusic`; the failure step itself never
invokes the Timeline Compiler.  The summary is terminal for a failed
classification request (no channel close follows it), but not for a
channel-level stream error: the channel's close callback still
follows, and it overwrites the summary with the empty-analysis
outcome when no events were buffered, or else invokes the Timeline
Compiler on the buffered events and restarts the transport and the
finalize timer, whose later summary overwrites "Connection Error". -/
theorem failure_summary_amended (s : AppState) :
    (step s .streamError).summary = some wsErrorSummary ∧
    (step s .classifyFail).summary = some catchErrorSummary ∧
    wsErrorSummary.title = "Connection Error" ∧
    catchErrorSummary.title = "Connection Error" ∧
    wsErrorSummary.messages ≠ catchErrorSummary.messages ∧
    (step s .streamError).status = (step s .classifyFail).status ∧
    (step s .streamError).isPlaying = false ∧
    (step s .streamError).transportRunning = false ∧
    (step s .streamError).stopTimeoutPending = false ∧
    (step s .streamError).sequenceActive = false ∧
    (step s .streamError).wsOpen = false ∧
    (step s .streamError).schedule = s.schedule ∧
    (step s .classifyFail).isPlaying = false ∧
    (step s .classifyFail).transportRunning = false ∧
    (step s .classifyFail).stopTimeoutPending = false ∧
    (step s .classifyFail).sequenceActive = false ∧
    (step s .classifyFail).wsOpen = false ∧
    (step s .classifyFail).schedule = s.schedule ∧
    (s.buffered = [] →
      (step (step s .streamError) .streamClose).summary =
        some emptyAnalysisSummary) ∧
    (s.buffered ≠ [] →
      (step (step s .streamError) .streamClose).schedule =
        compileTimeline s.paletteScale s.buffered ∧
      (step (step s .streamError) .streamClose).transportRunning =
        true ∧
      (step (step s .streamError) .streamClose).stopTimeoutPending =
        true ∧
      (step (step s .streamError) .streamClose).summary =
        some wsErrorSummary ∧
      (step (step (step s .streamError) .streamClose)
        .finalizeTimer).summary =
        some (finalSummaryOf (step (step s .streamError) .streamClose)) ∧
      (finalSummaryOf
        (step (step s .streamError) .streamClose)).title ≠
        "Connection Error") := by
  refine ⟨rfl, rfl, rfl, rfl, by decide, rfl, rfl, rfl, rfl, rfl, rfl,
    rfl, rfl, rfl, rfl, rfl, rfl, rfl, ?_, ?_⟩
  · intro h
    simp [step, stopMusic, h]
  · intro h
    have hlen : ¬ s.buffered.length = 0 := by
      simpa [List.length_eq_zero] using h
    refine ⟨?_, ?_, ?_, ?_, ?_, ?_⟩
    · simp [step, stopMusic, hlen]
    · simp [step, stopMusic, hlen]
    · simp [step, stopMusic, hlen]
    · simp [step, stopMusic, hlen]
    · simp [step, stopMusic, hlen]
    · simp only [finalSummaryOf]
      split_ifs <;> decide

theorem failure_summary_amended_witness :
    (step (step (initialState "x") .streamError) .streamClose).summary =
      some emptyAnalysisSummary ∧
    (step (step midStreamState .streamError) .streamClose).schedule =
      compileTimeline midStreamState.paletteScale
        midStreamState.buffered ∧
    (step (step midStreamState .streamError)
      .streamClose).transportRunning = true := by
  obtain ⟨-, -, -, -, -, -, -, -, -, -, -, -, -, -, -, -, -, -, hE, -⟩ :=
    failure_summary_amended (initialState "x")
  obtain ⟨-, -, -, -, -, -, -, -, -, -, -, -, -, -, -, -, -, -, -, hB⟩ :=
    failure_summary_amended midStreamState
  obtain ⟨hsch, htr, -, -, -, -⟩ := hB (by decide)
  exact ⟨hE rfl, hsch, htr⟩

/-- C4 as stated is false: starting a session clears the persistent
error map (`setPersistentErrors(new Map())` in `handlePlay`), so a
user stop mid-playback leaves the map empty, not as it was before the
session started.  Concretely, from a state holding the committed map
`{7 ↦ syntax_error}`, after starting a session and stopping during
playback the map is empty. -/
theorem persistence_stop_counterexample :
    prePlayState.persistentErrors = [(7, "syntax_error")] ∧
    midPlaybackState.isPlaying = true ∧
    midPlaybackState.transportRunning = true ∧
    (step midPlaybackState .playPressed).persistentErrors = [] ∧
    (step midPlaybackState .playPressed).persistentErrors ≠
      prePlayState.persistentErrors := by
  refine ⟨rfl, ?_, ?_, ?_, ?_⟩ <;> decide

/-- C4 amended: a user-initiated stop never itself modifies the
persistent error map (it stays as it was at the moment of the stop,
which within a session is empty because starting the session cleared
it); only the deferred finalize of a naturally completed session
commits the collected draft, and editing the source text clears the
committed map. -/
theorem persistence_stop_amended (s : AppState) (fs : Option Summary)
    (newCode : String) :
    (stopMusic fs s).persistentErrors = s.persistentErrors ∧
    (s.isPlaying = true →
      (step s .playPressed).persistentErrors = s.persistentErrors) ∧
    (s.isPlaying = false →
      (step s .playPressed).persistentErrors = []) ∧
    (s.stopTimeoutPending = true →
      (step s .finalizeTimer).persistentErrors = s.collectedErrors) ∧
    (step s (.editCode newCode)).persistentErrors = [] := by
  refine ⟨rfl, ?_, ?_, ?_, ?_⟩
  · intro h
    simp [step, h]
  · intro h
    simp [step, h]
  · intro h
    simp [step, h, stopMusic]
  · simp only [step, handleCodeChange]
    split_ifs with h
    · rfl
    · simpa using Nat.eq_zero_of_not_pos h

theorem persistence_stop_amended_witness :
    (stopMusic none midPlaybackState).persistentErrors = [] ∧
    (step midPlaybackState .playPressed).persistentErrors = [] ∧
    (step midPlaybackState .finalizeTimer).persistentErrors =
      midPlaybackState.collectedErrors ∧
    (step prePlayState (.editCode "y")).persistentErrors = [] := by
  obtain ⟨h1, h2, -, h3, -⟩ :=
    persistence_stop_amended midPlaybackState none "y"
  obtain ⟨-, -, -, -, h4⟩ :=
    persistence_stop_amended prePlayState none "y"
  refine ⟨?_, ?_, h3 (by decide), h4⟩
  · rw [h1]; decide
  · rw [h2 (by decide)]; decide

/-- C6 as stated is false: a play request during playback (channel
already closed by the server) performs none of the teardown — in
particular it does not cancel the deferred finalize timer and does not
stop the transport. -/
theorem stop_reentrancy_counterexample :
    midPlaybackState.isPlaying = true ∧
    midPlaybackState.wsOpen = false ∧
    midPlaybackState.stopTimeoutPending = true ∧
    midPlaybackState.transportRunning = true ∧
    (step midPlaybackState .playPressed).stopTimeoutPending = true ∧
    (step midPlaybackState .playPressed).transportRunning = true ∧
    (step midPlaybackState .playPressed).sequenceActive = true := by
  refine ⟨?_, ?_, ?_, ?_, ?_, ?_, ?_⟩ <;> decide

/-- C6 amended: the `stopMusic` teardown routine cancels the deferred
finalize timer, stops and clears the transport, disposes the playback
sequence (not the synth voice, which it leaves alone), and closes the
channel if it is open; a play request while already playing only
requests closing the channel and returns without starting a new
session — when the channel is already closed (mid-playback) it has no
further effect. -/
theorem stop_teardown_amended (s : AppState) (fs : Option Summary) :
    (stopMusic fs s).stopTimeoutPending = false ∧
    (stopMusic fs s).transportRunning = false ∧
    (stopMusic fs s).sequenceActive = false ∧
    (stopMusic fs s).wsOpen = false ∧
    (stopMusic fs s).isPlaying = false ∧
    (stopMusic fs s).synthActive = s.synthActive ∧
    (s.isPlaying = true →
      step s .playPressed = { s with wsOpen := false }) := by
  refine ⟨rfl, rfl, rfl, rfl, rfl, rfl, ?_⟩
  intro h
  simp [step, h]

theorem stop_teardown_amended_witness :
    (stopMusic none midPlaybackState).stopTimeoutPending = false ∧
    (stopMusic none midPlaybackState).transportRunning = false ∧
    (stopMusic none midPlaybackState).synthActive = true ∧
    step midPlaybackState .playPressed =
      { midPlaybackState with wsOpen := false } := by
  obtain ⟨h1, h2, -, -, -, h6, h7⟩ :=
    stop_teardown_amended midPlaybackState none
  refine ⟨h1, h2, ?_, h7 (by decide)⟩
  rw [h6]; decide

/-- Receiving a stream of non-error events on an open channel only
appends them to the buffer; the error side-channels and all other
state are untouched. -/
theorem foldl_codeEvent_clean (events : List MusicalEvent) :
    ∀ (s : AppState), s.wsOpen = true →
    (∀ e ∈ events, e.isError = false) →
    events.foldl (fun s e => step s (.codeEvent e)) s =
      { s with buffered := s.buffered ++ events } := by
  induction events with
  | nil =>
    intro s _ _
    simp
  | cons e es ih =>
    intro s hopen hclean
    have he : e.isError = false := hclean e (by simp)
    have hstep : step s (.codeEvent e) =
        { s with buffered := s.buffered ++ [e] } := by
      simp [step, hopen, he]
    rw [List.foldl_cons, hstep,
      ih _ (by simp [hopen]) (fun e' h' => hclean e' (by simp [h']))]
    simp

/-- C10: a session that reaches natural completion with at least one
buffered event, none of which is an error, surfaces exactly the
summary titled "Analysis Complete: Code is Clean!" with an empty
message list, and commits an empty persistent error map. -/
theorem clean_session_outcome (s : AppState) (genre : String)
    (events : List MusicalEvent) (hplay : s.isPlaying = false)
    (hne : events ≠ []) (hclean : ∀ e ∈ events, e.isError = false) :
    (runSession s genre events).summary =
      some ⟨"Analysis Complete: Code is Clean!", []⟩ ∧
    (runSession s genre events).persistentErrors = [] ∧
    (runSession s genre events).isPlaying = false := by
  have h1 : step s .playPressed =
      { s with
        isPlaying := true, visualNodes := [],
        highlightedLines := none, summary := none,
        persistentErrors := [],
        status := "1/3: Classifying code..." } := by
    simp [step, hplay]
  have h2 : step (step s .playPressed) (.classifyOk genre) =
      { s with
        isPlaying := true, visualNodes := [],
        highlightedLines := none, summary := none,
        persistentErrors := [],
        activePalette :=
          if genre ∈ musicPaletteKeys then genre else "default",
        paletteScale :=
          paletteScaleOf
            (if genre ∈ musicPaletteKeys then genre else "default"),
        synthActive := true,
        status := "2/3: Analyzing code structure...",
        buffered := [], errorMessages := [], collectedErrors := [],
        schedule := [], wsOpen := true } := by
    rw [h1]
    simp [step]
  have h3 : events.foldl (fun s e => step s (.codeEvent e))
      (step (step s .playPressed) (.classifyOk genre)) =
      { s with
        isPlaying := true, visualNodes := [],
        highlightedLines := none, summary := none,
        persistentErrors := [],
        activePalette :=
          if genre ∈ musicPaletteKeys then genre else "default",
        paletteScale :=
          paletteScaleOf
            (if genre ∈ musicPaletteKeys then genre else "default"),
        synthActive := true,
        status := "2/3: Analyzing code structure...",
        buffered := events, errorMessages := [], collectedErrors := [],
        schedule := [], wsOpen := true } := by
    rw [h2, foldl_codeEvent_clean events _ rfl hclean]
    simp
  have hlen : ¬ events.length = 0 := by
    simpa [List.length_eq_zero] using hne
  unfold runSession
  rw [h3]
  simp [step, hlen, stopMusic, finalSummaryOf]

theorem clean_session_outcome_witness :
    (runSession (initialState "x") "Go-Concurrent"
      [⟨"statement", 1, 1, false, "m"⟩]).summary =
      some ⟨"Analysis Complete: Code is Clean!", []⟩ ∧
    (runSession (initialState "x") "Go-Concurrent"
      [⟨"statement", 1, 1, false, "m"⟩]).persistentErrors = [] := by
  obtain ⟨hs, hp, -⟩ := clean_session_outcome (initialState "x")
    "Go-Concurrent" [⟨"statement", 1, 1, false, "m"⟩]
    (by decide) (by decide) (by decide)
  exact ⟨hs, hp⟩

/-- Spawning nodes one by one from any pool of at most 31 keeps, of
the pool followed by the spawned nodes, exactly the most recent 31. -/
theorem foldl_spawnNode (ns : List VisualNode) :
    ∀ (acc : List VisualNode), acc.length ≤ 31 →
    ns.foldl spawnNode acc =
      (acc ++ ns).drop ((acc ++ ns).length - 31) := by
  induction ns with
  | nil =>
    intro acc h
    simp [Nat.sub_eq_zero_of_le h]
  | cons n ns ih =>
    intro acc h
    rw [List.foldl_cons]
    have hlen : (spawnNode acc n).length ≤ 31 := by
      simp only [spawnNode, List.length_append, List.length_drop,
        List.length_cons, List.length_nil]
      omega
    rw [ih _ hlen]
    rcases Nat.lt_or_ge acc.length 31 with hlt | hge
    · have h30 : acc.length ≤ 30 := by omega
      have hsp : spawnNode acc n = acc ++ [n] := by
        simp [spawnNode, Nat.sub_eq_zero_of_le h30]
      rw [hsp]
      simp
    · have h31 : acc.length = 31 := le_antisymm h hge
      have hsp : spawnNode acc n = acc.drop 1 ++ [n] := by
        simp [spawnNode, h31]
      rw [hsp]
      have hA : (acc.drop 1 ++ [n]) ++ ns = (acc ++ n :: ns).drop 1 := by
        rw [List.drop_append_of_le_length (by omega)]
        simp
      rw [hA, List.drop_drop]
      congr 1
      simp only [List.length_append, List.length_drop, List.length_cons]
      omega

/-- C5 as stated is false: the pool update keeps the last 30 previous
nodes and then appends the new one, so after 31 spawns all 31 nodes
remain in the active set, not "exactly the most recent 30". -/
theorem node_pool_counterexample :
    manyNodes.length = 31 ∧
    spawnMany manyNodes = manyNodes ∧
    (spawnMany manyNodes).length ≠ 30 := by
  refine ⟨by decide, by decide, by decide⟩

/-- C5 amended: the active set is bounded to the most recent 31 nodes
(the 30 most recent survivors plus the newly spawned node), oldest
evicted first: after any sequence of spawns in one session, exactly
the most recent `min N 31` nodes remain. -/
theorem node_pool_amended (ns : List VisualNode) :
    spawnMany ns = ns.drop (ns.length - 31) ∧
    (spawnMany ns).length = min ns.length 31 := by
  have h := foldl_spawnNode ns [] (by simp)
  have h' : spawnMany ns = ns.drop (ns.length - 31) := by
    simpa [spawnMany] using h
  refine ⟨h', ?_⟩
  rw [h']
  simp only [List.length_drop]
  omega

end Swarr
